import Mathlib

/-!
Shallow embedding of `RosSubscriberSystem` from
`include/drake_ros_systems/ros_subscriber_system.h`.

The C++ class bridges an asynchronous ROS subscription (a callback thread
writing `received_message_` / `received_message_count_` under a mutex) and
Drake's pull-based scheduler (which polls `DoCalcNextUpdateTime`, commits via
`DoCalcUnrestrictedUpdate` into two abstract-state slots, and reads the output
port via `CalcOutputValue`).  Every access to the live buffer in the source is
performed under the single mutex `received_message_mutex_`, so the observable
behaviours of the component are exactly the sequences of atomic critical
sections; the embedding therefore models each locked region as one atomic
operation on explicit state.  Machine `int` is modelled as unbounded `Int`
(the defined-behaviour range of the C++ program); the separate 32-bit wrap
model `int32_wrap` captures the fixed-width nature of the counter field.
Scheduler time (C++ `double`) is modelled as exact rationals.
-/

namespace DrakeRosSystems

/-- Abstract-state slot index of the stored message (`kStateIndexMessage = 0`). -/
def kStateIndexMessage : Nat := 0

/-- Abstract-state slot index of the stored counter (`kStateIndexMessageCount = 1`). -/
def kStateIndexMessageCount : Nat := 1

/-- The lock-guarded live buffer: fields `received_message_` and
`received_message_count_` of the C++ class. -/
structure Buffer (M : Type) where
  received_message_ : M
  received_message_count_ : Int
deriving DecidableEq

/-- The abstract-state container allocated by `AllocateAbstractState`:
slot `kStateIndexMessage` holds the message copy, slot
`kStateIndexMessageCount` holds the counter copy; `rest` stands for any
further abstract slots owned by other systems in a diagram context (this
system allocates exactly the two). -/
structure AbstractValues (M : Type) where
  message : M
  count : Int
  rest : List Int
deriving DecidableEq

/-- The scheduler-owned state container (`systems::State<double>`):
continuous state, discrete state, and the abstract values. -/
structure State (M : Type) where
  continuous : List ℚ
  discrete : List (List ℚ)
  abstract : AbstractValues M
deriving DecidableEq

/-- A scheduler context: current time plus the state container. -/
structure Context (M : Type) where
  time : ℚ
  state : State M
deriving DecidableEq

variable {M : Type}

/-- Buffer contents at construction: value-initialized message
(`received_message_{}`) and counter 0 (`received_message_count_{0}`). -/
def initBuffer (d : M) : Buffer M :=
  { received_message_ := d, received_message_count_ := 0 }

/-- `HandleMessage`: the ROS callback; under the lock it overwrites
`received_message_` with the argument and increments
`received_message_count_` by one (then notifies all waiters). -/
def HandleMessage (b : Buffer M) (m : M) : Buffer M :=
  { received_message_ := m
    received_message_count_ := b.received_message_count_ + 1 }

/-- Deliver a whole list of messages in order (repeated `HandleMessage`). -/
def deliverAll (b : Buffer M) (ms : List M) : Buffer M :=
  ms.foldl HandleMessage b

/-- The consistent (payload, counter) pair read under one hold of the lock
(the body of `ProcessMessageAndStoreToAbstractState` reads exactly this pair
inside a single `lock_guard`). -/
def read_counter_and_payload (b : Buffer M) : M × Int :=
  (b.received_message_, b.received_message_count_)

/-- `GetMessageCount`: reads the counter stored in abstract state slot
`kStateIndexMessageCount`. -/
def GetMessageCount (ctx : Context M) : Int :=
  ctx.state.abstract.count

/-- `ProcessMessageAndStoreToAbstractState`: under one hold of the lock,
copies the live buffer pair into the two abstract-state slots, touching no
other slot. -/
def ProcessMessageAndStoreToAbstractState (b : Buffer M)
    (a : AbstractValues M) : AbstractValues M :=
  { a with message := b.received_message_, count := b.received_message_count_ }

/-- `DoCalcUnrestrictedUpdate`: the commit hook; delegates to
`ProcessMessageAndStoreToAbstractState` on the state's abstract values. -/
def DoCalcUnrestrictedUpdate (b : Buffer M) (s : State M) : State M :=
  { s with abstract := ProcessMessageAndStoreToAbstractState b s.abstract }

/-- `SetDefaultState`: context initialization performs the same copy. -/
def SetDefaultState (b : Buffer M) (s : State M) : State M :=
  { s with abstract := ProcessMessageAndStoreToAbstractState b s.abstract }

/-- `DoCalcNextUpdateTime`: compares `GetMessageCount context` with the live
counter (read under the lock); if they differ it sets
`*time = context.get_time() + 0.0001` and adds exactly one unrestricted
update event, otherwise it sets no time and adds no event.  Returns
(scheduled time if any, number of unrestricted update events added). -/
def DoCalcNextUpdateTime (b : Buffer M) (ctx : Context M) :
    Option ℚ × Nat :=
  if GetMessageCount ctx ≠ b.received_message_count_ then
    (some (ctx.time + 1 / 10000), 1)
  else
    (none, 0)

/-- The poll as a state transformer: the C++ method takes the context by
const reference and only fills the out-parameters, so the system state it
returns is the input unchanged. -/
def Poll (b : Buffer M) (ctx : Context M) :
    (Buffer M × Context M) × (Option ℚ × Nat) :=
  ((b, ctx), DoCalcNextUpdateTime b ctx)

/-- `CalcOutputValue`: copies abstract-state slot `kStateIndexMessage` of the
context into the output value; reads nothing else. -/
def CalcOutputValue (ctx : Context M) : M :=
  ctx.state.abstract.message

/-- `AllocateOutputValue`: a value-initialized message (`RosMessage{}`). -/
def AllocateOutputValue (d : M) : M := d

/-- Output of the whole system (buffer plus context): the abstract output
port value, computed from the context alone. -/
def SysOutput (s : Buffer M × Context M) : M :=
  CalcOutputValue s.2

/-- `make_name`: default system name for a topic. -/
def make_name (topic : String) : String :=
  "RosSubscriberSystem(" ++ topic ++ ")"

/-- A ROS node handle; only its presence or absence matters to this core. -/
structure NodeHandle where
  id : Nat
deriving DecidableEq

/-- The constructed system object: topic, node handle, name. -/
structure SystemModel where
  topic_ : String
  node_handle_ : NodeHandle
  name : String
deriving DecidableEq

/-- The constructor: `DRAKE_DEMAND(node_handle_)` aborts the process when the
node-handle pointer is null (modelled as `none`); otherwise construction
subscribes and succeeds unconditionally. -/
def RosSubscriberSystemConstruct (topic : String)
    (node_handle : Option NodeHandle) : Option SystemModel :=
  match node_handle with
  | none => none
  | some nh => some { topic_ := topic, node_handle_ := nh, name := make_name topic }

/-- The `Make` factory forwards to the constructor. -/
def Make (topic : String) (node_handle : Option NodeHandle) :
    Option SystemModel :=
  RosSubscriberSystemConstruct topic node_handle

/-- `WaitForMessage old current wakeups`: the condition-variable loop.
`current` is the live counter read after acquiring the lock; `wakeups` is the
sequence of live-counter values observed at successive returns from
`condition_variable::wait` (spurious wakeups leave the value unchanged).  The
loop keeps waiting while `old = current`; when the list of wakeups is
exhausted while still equal, the caller is blocked (`none`). -/
def WaitForMessage (old : Int) : Int → List Int → Option Int
  | current, [] => if old = current then none else some current
  | current, c :: rest =>
      if old = current then WaitForMessage old c rest else some current

/-- Initial whole-system states: the buffer as at construction and a context
whose two abstract slots hold the default-allocated message and counter 0
(what `AllocateAbstractState` followed by `SetDefaultState` on the fresh
buffer produces). -/
def Init (d : M) (s : Buffer M × Context M) : Prop :=
  s.1 = initBuffer d ∧
  s.2.state.abstract.message = d ∧
  s.2.state.abstract.count = 0

/-- Atomic transitions of the whole system: a delivery (`HandleMessage`
critical section), a commit (`DoCalcUnrestrictedUpdate`), or an environment
step (time advance, other systems mutating their own state) that leaves this
system's buffer and two abstract slots untouched.  The poll is a read-only
operation and changes no state. -/
inductive Step : (Buffer M × Context M) → (Buffer M × Context M) → Prop
  | handle (b : Buffer M) (ctx : Context M) (m : M) :
      Step (b, ctx) (HandleMessage b m, ctx)
  | update (b : Buffer M) (ctx : Context M) :
      Step (b, ctx) (b, { ctx with state := DoCalcUnrestrictedUpdate b ctx.state })
  | envStep (b : Buffer M) (ctx ctx' : Context M) :
      ctx'.state.abstract.message = ctx.state.abstract.message →
      ctx'.state.abstract.count = ctx.state.abstract.count →
      Step (b, ctx) (b, ctx')

/-- Reachable whole-system states: finitely many `Step`s from an initial
state. -/
def Reachable (d : M) (s : Buffer M × Context M) : Prop :=
  ∃ s₀, Init d s₀ ∧ Relation.ReflTransGen Step s₀ s

/-- 32-bit two's-complement wrap of an integer (the value a C++ `int` field
holds after overflow on the common ILP32/LP64 ABIs; signed overflow is
undefined behaviour in the standard). -/
def int32_wrap (n : Int) : Int :=
  (n + 2 ^ 31) % 2 ^ 32 - 2 ^ 31

/-- The counter increment of `HandleMessage` performed on a fixed-width
32-bit `int`. -/
def HandleMessageInt32Count (c : Int) : Int :=
  int32_wrap (c + 1)

/-- The value of the 32-bit counter after a given number of deliveries,
starting from its initializer 0. -/
def countAfterInt32 : Nat → Int
  | 0 => 0
  | k + 1 => HandleMessageInt32Count (countAfterInt32 k)

/-- A concrete context used to instantiate general theorems. -/
def sampleContext : Context Int :=
  { time := 0
    state := { continuous := [], discrete := [], abstract := { message := 0, count := 0, rest := [] } } }

/-- A concrete buffer holding one undelivered message. -/
def sampleBuffer : Buffer Int :=
  { received_message_ := 3, received_message_count_ := 1 }

/-! ## Helper lemmas -/

theorem deliverAll_count (b : Buffer M) (ms : List M) :
    (deliverAll b ms).received_message_count_ =
      b.received_message_count_ + ms.length := by
  induction ms generalizing b with
  | nil => simp [deliverAll]
  | cons m rest ih =>
      show (deliverAll (HandleMessage b m) rest).received_message_count_ = _
      rw [ih]
      simp [HandleMessage]
      ring

theorem deliverAll_payload (b : Buffer M) (ms : List M) (h : ms ≠ []) :
    (deliverAll b ms).received_message_ = ms.getLast h := by
  induction ms generalizing b with
  | nil => exact absurd rfl h
  | cons m rest ih =>
      cases rest with
      | nil => rfl
      | cons m' rest' =>
          show (deliverAll (HandleMessage b m) (m' :: rest')).received_message_ = _
          rw [ih (HandleMessage b m) (by simp)]
          simp [List.getLast]

theorem step_preserves_snap_le {s s' : Buffer M × Context M} (h : Step s s')
    (hle : GetMessageCount s.2 ≤ s.1.received_message_count_) :
    GetMessageCount s'.2 ≤ s'.1.received_message_count_ := by
  cases h with
  | handle b ctx m =>
      simp only [GetMessageCount, HandleMessage] at *
      omega
  | update b ctx =>
      simp [GetMessageCount, DoCalcUnrestrictedUpdate,
        ProcessMessageAndStoreToAbstractState]
  | envStep b ctx ctx' hm hc =>
      simpa [GetMessageCount, hc] using hle

theorem reachable_snap_le {d : M} {s : Buffer M × Context M}
    (h : Reachable d s) :
    GetMessageCount s.2 ≤ s.1.received_message_count_ := by
  obtain ⟨s₀, h₀, hsteps⟩ := h
  induction hsteps with
  | refl =>
      obtain ⟨hb, _, hc⟩ := h₀
      simp [GetMessageCount, hc, hb, initBuffer]
  | tail _ hstep ih => exact step_preserves_snap_le hstep ih

theorem waitForMessage_immediate {old current : Int} (ws : List Int)
    (h : old ≠ current) : WaitForMessage old current ws = some current := by
  cases ws <;> simp [WaitForMessage, h]

theorem waitForMessage_result_ne {old current : Int} {ws : List Int} {r : Int}
    (h : WaitForMessage old current ws = some r) : r ≠ old := by
  induction ws generalizing current with
  | nil =>
      by_cases hc : old = current <;> simp [WaitForMessage, hc] at h
      omega
  | cons c rest ih =>
      by_cases hc : old = current
      · simp only [WaitForMessage, if_pos hc] at h
        exact ih h
      · simp [WaitForMessage, hc] at h
        omega

theorem waitForMessage_blocks_then_returns (c : Int) (k : Nat) (ws : List Int) :
    WaitForMessage c c (List.replicate k c ++ (c + 1) :: ws) = some (c + 1) := by
  induction k with
  | zero =>
      simp only [List.replicate, List.nil_append, WaitForMessage, if_pos rfl]
      exact waitForMessage_immediate ws (by omega)
  | succ k ih =>
      simp only [List.replicate, List.cons_append, WaitForMessage, if_pos rfl]
      exact ih

theorem countAfterInt32_closed (k : Nat) : countAfterInt32 k = int32_wrap k := by
  induction k with
  | zero =>
      simp only [countAfterInt32, int32_wrap]
      omega
  | succ k ih =>
      simp only [countAfterInt32, HandleMessageInt32Count, ih, int32_wrap]
      push_cast
      omega

/-! ## Claim theorems -/

/-- Claim C1: on every reachable whole-system state the abstract output port
value (`CalcOutputValue`) equals the payload stored in abstract-state slot
`kStateIndexMessage`, and replacing the live buffer by any other buffer does
not change the output: output computation is a pure function of
scheduler-owned state and never reads `received_message_`. -/
theorem calcOutput_reads_only_snapshot {d : M} {s : Buffer M × Context M}
    (h : Reachable d s) (b' : Buffer M) :
    SysOutput s = s.2.state.abstract.message ∧
    SysOutput (b', s.2) = SysOutput s :=
  ⟨rfl, rfl⟩

/-- Witness for C1 at a concrete reachable state. -/
theorem calcOutput_reads_only_snapshot_witness :
    SysOutput (initBuffer (0 : Int), sampleContext) =
      sampleContext.state.abstract.message ∧
    SysOutput (sampleBuffer, sampleContext) =
      SysOutput (initBuffer (0 : Int), sampleContext) :=
  calcOutput_reads_only_snapshot
    ⟨(initBuffer 0, sampleContext), ⟨rfl, rfl, rfl⟩, Relation.ReflTransGen.refl⟩
    sampleBuffer

/-- Claim C2: on every reachable whole-system state the snapshot counter
(abstract slot `kStateIndexMessageCount`, read by `GetMessageCount`) is at
most the live counter `received_message_count_`, and `DoCalcNextUpdateTime`
adds exactly one unrestricted-update event iff the two counters differ. -/
theorem poll_schedules_iff_counters_differ {d : M} {s : Buffer M × Context M}
    (h : Reachable d s) :
    GetMessageCount s.2 ≤ s.1.received_message_count_ ∧
    ((DoCalcNextUpdateTime s.1 s.2).2 = 1 ↔
      GetMessageCount s.2 ≠ s.1.received_message_count_) := by
  refine ⟨reachable_snap_le h, ?_⟩
  by_cases hne : GetMessageCount s.2 ≠ s.1.received_message_count_ <;>
    simp [DoCalcNextUpdateTime, hne]

/-- Witness for C2 at a concrete reachable state. -/
theorem poll_schedules_iff_counters_differ_witness :
    GetMessageCount sampleContext ≤ (initBuffer (0 : Int)).received_message_count_ ∧
    ((DoCalcNextUpdateTime (initBuffer (0 : Int)) sampleContext).2 = 1 ↔
      GetMessageCount sampleContext ≠ (initBuffer (0 : Int)).received_message_count_) :=
  poll_schedules_iff_counters_differ
    ⟨(initBuffer 0, sampleContext), ⟨rfl, rfl, rfl⟩, Relation.ReflTransGen.refl⟩

/-- Claim C3: after `ms.length ≥ 1` deliveries on a fresh buffer with a
synced context, one poll adds exactly one unrestricted-update event, and one
commit sets the snapshot counter to exactly `ms.length` and the snapshot
payload (hence the output) to the most recent delivery `ms.getLast`;
intermediate payloads never reach the snapshot since no commit intervenes. -/
theorem n_deliveries_one_poll_one_commit (d : M) (ms : List M)
    (ctx : Context M) (h : ms ≠ []) (hsync : GetMessageCount ctx = 0) :
    (DoCalcNextUpdateTime (deliverAll (initBuffer d) ms) ctx).2 = 1 ∧
    GetMessageCount
      { ctx with state := DoCalcUnrestrictedUpdate (deliverAll (initBuffer d) ms) ctx.state } =
      ms.length ∧
    CalcOutputValue
      { ctx with state := DoCalcUnrestrictedUpdate (deliverAll (initBuffer d) ms) ctx.state } =
      ms.getLast h := by
  have hlen : 0 < ms.length := List.length_pos.mpr h
  have hcnt : (deliverAll (initBuffer d) ms).received_message_count_ = ms.length := by
    rw [deliverAll_count]
    simp [initBuffer]
  have hne : GetMessageCount ctx ≠ (deliverAll (initBuffer d) ms).received_message_count_ := by
    rw [hcnt, hsync]
    intro heq
    omega
  refine ⟨by simp [DoCalcNextUpdateTime, hne], ?_, ?_⟩
  · simp [GetMessageCount, DoCalcUnrestrictedUpdate,
      ProcessMessageAndStoreToAbstractState, hcnt]
  · simp [CalcOutputValue, DoCalcUnrestrictedUpdate,
      ProcessMessageAndStoreToAbstractState, deliverAll_payload _ _ h]

/-- Witness for C3 with two concrete deliveries. -/
theorem n_deliveries_one_poll_one_commit_witness :
    ([1, 2] : List Int) ≠ [] ∧
    GetMessageCount sampleContext = 0 ∧
    ((DoCalcNextUpdateTime (deliverAll (initBuffer (7 : Int)) [1, 2]) sampleContext).2 = 1 ∧
      GetMessageCount
        { sampleContext with
            state := DoCalcUnrestrictedUpdate (deliverAll (initBuffer (7 : Int)) [1, 2])
              sampleContext.state } =
        ([1, 2] : List Int).length ∧
      CalcOutputValue
        { sampleContext with
            state := DoCalcUnrestrictedUpdate (deliverAll (initBuffer (7 : Int)) [1, 2])
              sampleContext.state } =
        ([1, 2] : List Int).getLast (by decide)) :=
  ⟨by decide, rfl,
    n_deliveries_one_poll_one_commit 7 [1, 2] sampleContext (by decide) rfl⟩

/-- Claim C4: `HandleMessage` replaces the stored payload with its argument
and increments the counter by exactly one; the counter starts at 0; and no
step of the system (delivery, commit, or environment step) ever decreases
the live counter. -/
theorem handle_increments_and_never_decrements (d : M) (b : Buffer M) (m : M)
    {s s' : Buffer M × Context M} (hstep : Step s s') :
    (HandleMessage b m).received_message_ = m ∧
    (HandleMessage b m).received_message_count_ = b.received_message_count_ + 1 ∧
    (initBuffer d).received_message_count_ = 0 ∧
    s.1.received_message_count_ ≤ s'.1.received_message_count_ := by
  refine ⟨rfl, rfl, rfl, ?_⟩
  cases hstep with
  | handle b ctx m =>
      simp only [HandleMessage]
      omega
  | update b ctx => exact le_rfl
  | envStep b ctx ctx' hm hc => exact le_rfl

/-- Witness for C4 at a concrete delivery step. -/
theorem handle_increments_and_never_decrements_witness :
    (HandleMessage (initBuffer (0 : Int)) 5).received_message_ = 5 ∧
    (HandleMessage (initBuffer (0 : Int)) 5).received_message_count_ =
      (initBuffer (0 : Int)).received_message_count_ + 1 ∧
    (initBuffer (0 : Int)).received_message_count_ = 0 ∧
    (initBuffer (0 : Int), sampleContext).1.received_message_count_ ≤
      (HandleMessage (initBuffer (0 : Int)) 7, sampleContext).1.received_message_count_ :=
  handle_increments_and_never_decrements 0 (initBuffer 0) 5
    (Step.handle (initBuffer 0) sampleContext 7)

/-- Claim C5: the condition-variable loop of `WaitForMessage`: called with
the argument equal to the live counter it waits through any number of
spurious wakeups until a delivery raises the counter to `c + 1` and returns
`c + 1`; called with the argument below the live counter it returns the live
counter immediately (for any wakeup trace); and whenever it returns, the
returned counter differs from the argument. -/
theorem waitForMessage_spec (old current c : Int) (k : Nat) (ws : List Int)
    (r : Int) (hlt : old < current)
    (hr : WaitForMessage old current ws = some r) :
    WaitForMessage c c (List.replicate k c ++ (c + 1) :: ws) = some (c + 1) ∧
    WaitForMessage old current ws = some current ∧
    r ≠ old :=
  ⟨waitForMessage_blocks_then_returns c k ws,
    waitForMessage_immediate ws (by omega),
    waitForMessage_result_ne hr⟩

/-- Witness for C5 at concrete counters and a concrete wakeup trace. -/
theorem waitForMessage_spec_witness :
    WaitForMessage 0 0 (List.replicate 2 0 ++ (0 + 1) :: []) = some (0 + 1) ∧
    WaitForMessage 0 2 [] = some 2 ∧
    (2 : Int) ≠ 0 :=
  waitForMessage_spec 0 2 0 2 [] 2 (by decide) (by decide)

/-- Claim C6: whenever the snapshot counter differs from the live counter,
`DoCalcNextUpdateTime` reports the event time `context.get_time() + 0.0001`,
which is strictly greater than the current scheduler time. -/
theorem refresh_time_is_epsilon_after_now (b : Buffer M) (ctx : Context M)
    (h : GetMessageCount ctx ≠ b.received_message_count_) :
    (DoCalcNextUpdateTime b ctx).1 = some (ctx.time + 1 / 10000) ∧
    ctx.time < ctx.time + 1 / 10000 := by
  refine ⟨by simp [DoCalcNextUpdateTime, h], ?_⟩
  have : (0 : ℚ) < 1 / 10000 := by norm_num
  linarith

/-- Witness for C6 at a concrete stale context. -/
theorem refresh_time_is_epsilon_after_now_witness :
    (DoCalcNextUpdateTime sampleBuffer sampleContext).1 =
      some (sampleContext.time + 1 / 10000) ∧
    sampleContext.time < sampleContext.time + 1 / 10000 :=
  refresh_time_is_epsilon_after_now sampleBuffer sampleContext (by decide)

/-- Claim C7: construction succeeds iff the node-handle pointer is present
(`DRAKE_DEMAND(node_handle_)` aborts exactly when it is null), and the
`Make` factory is the constructor; all other operations of the core are
total functions. -/
theorem construction_fails_iff_no_node_handle (topic : String)
    (nh : Option NodeHandle) :
    ((RosSubscriberSystemConstruct topic nh).isSome ↔ nh.isSome) ∧
    Make topic nh = RosSubscriberSystemConstruct topic nh := by
  cases nh <;> simp [RosSubscriberSystemConstruct, Make]

/-- Claim C8: under the lock-serialized interleaving model, a read of the
(payload, counter) pair after any sequence of deliveries returns the payload
of the most recent delivery paired with that delivery's ordinal — a pair
produced by one single delivery, never a mix of two; before any delivery it
returns the initial pair (default payload, 0). -/
theorem read_pair_never_torn (d : M) (ms : List M) (h : ms ≠ []) :
    read_counter_and_payload (deliverAll (initBuffer d) ms) =
      (ms.getLast h, (ms.length : Int)) ∧
    read_counter_and_payload (initBuffer d) = (d, 0) := by
  refine ⟨?_, rfl⟩
  have hcnt : (deliverAll (initBuffer d) ms).received_message_count_ = ms.length := by
    rw [deliverAll_count]
    simp [initBuffer]
  have hpay := deliverAll_payload (initBuffer d) ms h
  simp [read_counter_and_payload, hcnt, hpay]

/-- Witness for C8 after two concrete deliveries. -/
theorem read_pair_never_torn_witness :
    read_counter_and_payload (deliverAll (initBuffer (9 : Int)) [4, 5]) =
      (([4, 5] : List Int).getLast (by decide), (([4, 5] : List Int).length : Int)) ∧
    read_counter_and_payload (initBuffer (9 : Int)) = (9, 0) :=
  read_pair_never_torn 9 [4, 5] (by decide)

/-- Claim C9: the commit `DoCalcUnrestrictedUpdate` leaves the continuous
state, the discrete state and every abstract slot other than the two it owns
unchanged, and the poll `DoCalcNextUpdateTime` leaves the whole system state
unchanged. -/
theorem commit_writes_only_two_slots (b : Buffer M) (s : State M)
    (ctx : Context M) :
    (DoCalcUnrestrictedUpdate b s).continuous = s.continuous ∧
    (DoCalcUnrestrictedUpdate b s).discrete = s.discrete ∧
    (DoCalcUnrestrictedUpdate b s).abstract.rest = s.abstract.rest ∧
    (Poll b ctx).1 = (b, ctx) :=
  ⟨rfl, rfl, rfl, rfl⟩

/-- Claim C10: the counter is a fixed-width 32-bit `int`, not an unbounded
integer: under two's-complement wrap (signed overflow being undefined
behaviour in C++), after `2^31 - 1` deliveries the counter holds `INT_MAX`
and the very next delivery wraps it to `-2^31`, so beyond `2^31 - 1`
deliveries the counter is no longer non-negative nor monotonic; each
increment is congruent to `+1` modulo `2^32`. -/
theorem counter_is_fixed_width_int32 :
    countAfterInt32 (2 ^ 31 - 1) = 2 ^ 31 - 1 ∧
    0 ≤ countAfterInt32 (2 ^ 31 - 1) ∧
    countAfterInt32 (2 ^ 31) = -(2 ^ 31) ∧
    countAfterInt32 (2 ^ 31) < 0 ∧
    countAfterInt32 (2 ^ 31) < countAfterInt32 (2 ^ 31 - 1) ∧
    ∀ c : Int, HandleMessageInt32Count c % 2 ^ 32 = (c + 1) % 2 ^ 32 := by
  have h1 := countAfterInt32_closed (2 ^ 31 - 1)
  have h2 := countAfterInt32_closed (2 ^ 31)
  simp only [int32_wrap] at h1 h2
  refine ⟨by omega, by omega, by omega, by omega, by omega, ?_⟩
  intro c
  simp only [HandleMessageInt32Count, int32_wrap]
  omega

end DrakeRosSystems
